import Mathlib

/-
Verification development for the cargo-criterion core: the Result Store
(src/model.rs) and the Build Orchestrator (src/compile.rs).

Modelling conventions:
  * Machine floats (f64 sample values) are opaque payloads to this core; they
    are only copied, never computed with, so they are embedded as Int.
  * Timestamps are embedded as Nat; the measurement file name embeds the
    timestamp textually, mirroring the strictly increasing textual pattern.
  * File system paths are lists of path components; effects of the durable
    write path are reified as an explicit event list plus an outcome oracle
    describing which file operations succeed.
  * LinkedHashMap (insertion-ordered map; value update in place keeps the
    position, remove then insert moves an entry to the end) is embedded as an
    association list with a key projection.
-/

set_option autoImplicit false

/-- Modelled from the spec: Throughput is an opaque unit-tagged rate value
defined in the out-of-scope connection module; only stored and compared. -/
inductive Throughput : Type where
  | bytes (n : Nat)
  | elements (n : Nat)
deriving DecidableEq

/-- Modelled from the spec: Estimates is an opaque statistical estimate bundle
defined in the out-of-scope estimate module; only stored and compared. -/
structure Estimates : Type where
  blob : Nat
deriving DecidableEq

/-- Modelled from the spec: a derived identifier string (directory name or
title) produced by the out-of-scope report module. The deterministic base
formatting is unspecified there, so it is kept as an opaque base plus the
numeric disambiguation suffix appended by the uniqueness machinery;
suffix 0 means no suffix. -/
structure DerivedName : Type where
  base : String
  suffix : Nat
deriving DecidableEq

/-- Renders a derived name to the string used in paths and messages. -/
def renderName (d : DerivedName) : String :=
  if d.suffix = 0 then d.base else d.base ++ "_" ++ toString d.suffix

/-- Modelled from the spec: BenchmarkId from the out-of-scope report module.
Equality of identities is over the four logical fields; the derived
directory name and title carry transient uniqueness-suffix state. -/
structure BenchmarkId : Type where
  group_id : String
  function_id : Option String
  value_str : Option String
  throughput : Option Throughput
  directory_name : DerivedName
  title : DerivedName
deriving DecidableEq

/-- Key projection for identity equality: the four logical fields. -/
def keyOf (id : BenchmarkId) :
    String × Option String × Option String × Option Throughput :=
  (id.group_id, id.function_id, id.value_str, id.throughput)

/-- Durable projection of a BenchmarkId (model.rs SavedBenchmarkId). -/
structure SavedBenchmarkId : Type where
  group_id : String
  function_id : Option String
  value_str : Option String
  throughput : Option Throughput
deriving DecidableEq

/-- Conversion From BenchmarkId for SavedBenchmarkId (model.rs). -/
def SavedBenchmarkId.ofBenchmarkId (other : BenchmarkId) : SavedBenchmarkId :=
  { group_id := other.group_id
    function_id := other.function_id
    value_str := other.value_str
    throughput := other.throughput }

/-- Modelled from the spec: BenchmarkId.new of the report module derives the
directory name and title deterministically from the logical fields. -/
def BenchmarkId.new (g : String) (f v : Option String) (t : Option Throughput) :
    BenchmarkId :=
  { group_id := g
    function_id := f
    value_str := v
    throughput := t
    directory_name := ⟨g ++ "/" ++ f.getD "" ++ "/" ++ v.getD "", 0⟩
    title := ⟨g ++ "/" ++ f.getD "" ++ "/" ++ v.getD "", 0⟩ }

/-- Conversion From SavedBenchmarkId for BenchmarkId (model.rs). -/
def BenchmarkId.ofSaved (other : SavedBenchmarkId) : BenchmarkId :=
  BenchmarkId.new other.group_id other.function_id other.value_str
    other.throughput

/-- SavedStatistics (model.rs): the persisted snapshot of one measurement. -/
structure SavedStatistics : Type where
  datetime : Nat
  iterations : List Int
  values : List Int
  avg_values : List Int
  estimates : Estimates
  throughput : Option Throughput
deriving DecidableEq

/-- BenchmarkRecord (model.rs): the pointer record naming the latest
measurement file. -/
structure BenchmarkRecord : Type where
  id : SavedBenchmarkId
  latest_record : String
deriving DecidableEq

/-- Modelled from the spec: MeasurementData is the opaque aggregate handed in
by the out-of-scope analysis pipeline; only its accessors used by
benchmark_complete are kept. -/
structure MeasurementData : Type where
  iter_counts : List Int
  sample_times : List Int
  avg_times : List Int
  absolute_estimates : Estimates
  throughput : Option Throughput
deriving DecidableEq

/-- Builds the SavedStatistics snapshot exactly as benchmark_complete does. -/
def savedStatsOf (now : Nat) (analysis_results : MeasurementData) :
    SavedStatistics :=
  { datetime := now
    iterations := analysis_results.iter_counts
    values := analysis_results.sample_times
    avg_values := analysis_results.avg_times
    estimates := analysis_results.absolute_estimates
    throughput := analysis_results.throughput }

/-- Benchmark (model.rs): one benchmark entry with depth-1 history. -/
structure Benchmark : Type where
  latest_stats : Option SavedStatistics
  previous_stats : Option SavedStatistics
  target : Option String
deriving DecidableEq

/-- Default value of Benchmark (model.rs Default impl). -/
def Benchmark.default : Benchmark :=
  { latest_stats := none, previous_stats := none, target := none }

/-- Benchmark.add_stats (model.rs): shift latest to previous, set latest. -/
def Benchmark.add_stats (b : Benchmark) (stats : SavedStatistics) : Benchmark :=
  { b with previous_stats := b.latest_stats, latest_stats := some stats }

section LHM

variable {K V : Type} {α : Type} [DecidableEq α]

/-- Lookup in an insertion-ordered association list, first match by key
projection (LinkedHashMap.get). -/
def lhmGet (key : K → α) : List (K × V) → K → Option V
  | [], _ => none
  | e :: t, k => if key e.1 = key k then some e.2 else lhmGet key t k

/-- Insert into an insertion-ordered association list: an existing entry keeps
its position and stored key and only its value is replaced; a new key is
appended at the end (LinkedHashMap.insert, also modelling mutation through
get_mut and entry().or_insert_with). -/
def lhmInsert (key : K → α) : List (K × V) → K → V → List (K × V)
  | [], k, v => [(k, v)]
  | e :: t, k, v =>
    if key e.1 = key k then (e.1, v) :: t else e :: lhmInsert key t k v

/-- Remove from an insertion-ordered association list: drops the first entry
matching the key and returns its value (LinkedHashMap.remove). -/
def lhmRemove (key : K → α) : List (K × V) → K → Option V × List (K × V)
  | [], _ => (none, [])
  | e :: t, k =>
    if key e.1 = key k then (some e.2, t)
    else
      let r := lhmRemove key t k
      (r.1, e :: r.2)

end LHM

/-- Insert into a set modelled as a duplicate-free list (HashSet.insert). -/
def insertSet {β : Type} [DecidableEq β] (l : List β) (x : β) : List β :=
  if x ∈ l then l else l ++ [x]

/-- BenchmarkGroup (model.rs): ordered map of benchmarks plus owner target. -/
structure BenchmarkGroup : Type where
  benchmarks : List (BenchmarkId × Benchmark)
  target : Option String
deriving DecidableEq

/-- Default value of BenchmarkGroup (model.rs Default impl). -/
def BenchmarkGroup.default : BenchmarkGroup :=
  { benchmarks := [], target := none }

/-- Model (model.rs): the result store. -/
structure Model : Type where
  data_directory : List String
  all_titles : List DerivedName
  all_directories : List DerivedName
  groups : List (String × BenchmarkGroup)
deriving DecidableEq

/-- String key projection used for the group map. -/
def strKey (s : String) : String := s

/-- Model.get_last_sample (model.rs): pure lookup of the latest stats. -/
def Model.get_last_sample (m : Model) (id : BenchmarkId) :
    Option SavedStatistics :=
  (lhmGet strKey m.groups id.group_id).bind fun g =>
    (lhmGet keyOf g.benchmarks id).bind fun b => b.latest_stats

/-- Lookup of the full benchmark entry along the same path the code uses. -/
def Model.get_benchmark (m : Model) (id : BenchmarkId) : Option Benchmark :=
  (lhmGet strKey m.groups id.group_id).bind fun g =>
    lhmGet keyOf g.benchmarks id

/-- Presence of a benchmark entry in the in-memory index. -/
def Model.contains_benchmark (m : Model) (id : BenchmarkId) : Bool :=
  (m.get_benchmark id).isSome

/-- Presence of a group entry in the in-memory index. -/
def Model.contains_group (m : Model) (gid : String) : Bool :=
  (lhmGet strKey m.groups gid).isSome

/-- Modelled from the spec: search for the first free disambiguation suffix
at or above k, with explicit fuel (the report module appends a suffix until
the derived name is unique). -/
def uniquifyFrom (base : String) (taken : List DerivedName) :
    Nat → Nat → DerivedName
  | 0, k => ⟨base, k⟩
  | fuel + 1, k =>
    if (⟨base, k⟩ : DerivedName) ∈ taken then
      uniquifyFrom base taken fuel (k + 1)
    else ⟨base, k⟩

/-- Modelled from the spec: resolve a derived name against the set of names
already taken, appending a disambiguating suffix only on collision. -/
def uniquify (n : DerivedName) (taken : List DerivedName) : DerivedName :=
  if n ∈ taken then
    uniquifyFrom n.base taken (taken.length + 1) (n.suffix + 1)
  else n

/-- Modelled from the spec: BenchmarkId.ensure_directory_name_unique of the
report module rewrites the directory name in place to avoid collision. -/
def BenchmarkId.ensure_directory_name_unique (id : BenchmarkId)
    (existing_directories : List DerivedName) : BenchmarkId :=
  { id with directory_name := uniquify id.directory_name existing_directories }

/-- Modelled from the spec: BenchmarkId.ensure_title_unique of the report
module rewrites the title in place to avoid collision. -/
def BenchmarkId.ensure_title_unique (id : BenchmarkId)
    (existing_titles : List DerivedName) : BenchmarkId :=
  { id with title := uniquify id.title existing_titles }

/-- Warning text emitted when a benchmark id is registered again
(model.rs add_benchmark_id). -/
def warnMultiple (id : BenchmarkId) (target : String) : String :=
  "Benchmark ID " ++ renderName id.title ++
    " encountered multiple times. Benchmark IDs must be unique. First seen in the benchmark target " ++
    target

/-- Model.add_benchmark_id (model.rs): uniquifies the identity, records its
derived strings, finds-or-creates the group, moves the benchmark entry to the
end of the group, warns when the entry already had a recorded target and
otherwise records the registering target. Returns the updated store, the
(possibly rewritten) identity, and the warnings emitted. -/
def Model.add_benchmark_id (m : Model) (target : String) (id : BenchmarkId) :
    Model × BenchmarkId × List String :=
  let id1 := id.ensure_directory_name_unique m.all_directories
  let dirs := insertSet m.all_directories id1.directory_name
  let id2 := id1.ensure_title_unique m.all_titles
  let titles := insertSet m.all_titles id2.title
  let group := (lhmGet strKey m.groups id2.group_id).getD BenchmarkGroup.default
  let rem := lhmRemove keyOf group.benchmarks id2
  let benchmark := rem.1.getD Benchmark.default
  let step :=
    match benchmark.target with
    | some t => ([warnMultiple id2 t], benchmark)
    | none => (([] : List String), { benchmark with target := some target })
  let group2 := { group with benchmarks := lhmInsert keyOf rem.2 id2 step.2 }
  ({ m with
      all_directories := dirs
      all_titles := titles
      groups := lhmInsert strKey m.groups id2.group_id group2 },
    id2, step.1)

/-- Model.add_benchmark_group (model.rs): remove and reinsert so that the
group moves to the end of the map, re-attributing its owner target. -/
def Model.add_benchmark_group (m : Model) (target : String)
    (group_name : String) : Model :=
  let rem := lhmRemove strKey m.groups group_name
  let group := { rem.1.getD BenchmarkGroup.default with target := some target }
  { m with groups := lhmInsert strKey rem.2 group_name group }

/-- Content of one file in the modelled data directory. -/
inductive FileContent : Type where
  | recordFile (r : BenchmarkRecord)
  | statsFile (s : SavedStatistics)
  | corrupt
deriving DecidableEq

/-- Renders a component path to the string used in error messages. -/
def renderPath (p : List String) : String := String.intercalate "/" p

/-- Lookup of a file by path in the modelled directory tree. -/
def lookupFile (fs : List (List String × FileContent)) (p : List String) :
    Option FileContent :=
  lhmGet (fun q : List String => q) fs p

/-- Inserts a loaded record into the index exactly as load_stored_benchmark
does through the entry API: find-or-create group and benchmark, then set
latest_stats. -/
def insertLoaded (m : Model) (rec : BenchmarkRecord) (s : SavedStatistics) :
    Model :=
  let bid := BenchmarkId.ofSaved rec.id
  let g := (lhmGet strKey m.groups rec.id.group_id).getD BenchmarkGroup.default
  let b := (lhmGet keyOf g.benchmarks bid).getD Benchmark.default
  let g2 :=
    { g with
        benchmarks :=
          lhmInsert keyOf g.benchmarks bid { b with latest_stats := some s } }
  { m with groups := lhmInsert strKey m.groups rec.id.group_id g2 }

/-- Model.load_stored_benchmark (model.rs): decode the pointer record, then
the measurement file it names, and install the snapshot in the index; any
decode failure is an error, a missing file is silently skipped. -/
def Model.load_stored_benchmark (m : Model)
    (fs : List (List String × FileContent)) (benchmark_path : List String) :
    Except String Model :=
  match lookupFile fs benchmark_path with
  | none => Except.ok m
  | some (FileContent.statsFile _) =>
    Except.error ("Failed to read benchmark file " ++ renderPath benchmark_path)
  | some FileContent.corrupt =>
    Except.error ("Failed to read benchmark file " ++ renderPath benchmark_path)
  | some (FileContent.recordFile rec) =>
    let measurement_path := benchmark_path.dropLast ++ [rec.latest_record]
    match lookupFile fs measurement_path with
    | none => Except.ok m
    | some (FileContent.statsFile s) => Except.ok (insertLoaded m rec s)
    | some (FileContent.recordFile _) =>
      Except.error
        ("Failed to read benchmark file " ++ renderPath measurement_path)
    | some FileContent.corrupt =>
      Except.error
        ("Failed to read benchmark file " ++ renderPath measurement_path)

/-- One walk step of Model.load: process a directory entry when its file name
is the record sentinel, logging and skipping entries that fail to load. -/
def loadStep (fs : List (List String × FileContent)) (m : Model)
    (entry : List String × FileContent) : Model :=
  if entry.1.getLast? = some "benchmark.cbor" then
    match m.load_stored_benchmark fs entry.1 with
    | Except.ok m2 => m2
    | Except.error _ => m
  else m

/-- Model.load (model.rs): build the empty store over root/data/timeline and
hydrate it by walking the directory tree, loading each record file
independently and ignoring per-record errors. -/
def Model.load (criterion_home timeline : String)
    (walk : List (List String × FileContent)) : Model :=
  let init : Model :=
    { data_directory := [criterion_home, "data", timeline]
      all_titles := []
      all_directories := []
      groups := [] }
  walk.foldl (loadStep walk) init

/-- Outcome oracle for the file operations done by benchmark_complete. -/
structure FsOutcome : Type where
  create_dir_ok : Bool
  create_measurement_ok : Bool
  write_measurement_ok : Bool
  create_record_ok : Bool
  write_record_ok : Bool
deriving DecidableEq

/-- Oracle on which every file operation succeeds. -/
def FsOutcome.allOk : FsOutcome :=
  { create_dir_ok := true
    create_measurement_ok := true
    write_measurement_ok := true
    create_record_ok := true
    write_record_ok := true }

/-- Observable file-system effects of benchmark_complete, in order. -/
inductive FsEvent : Type where
  | createDir (path : List String)
  | createFile (path : List String)
  | writeMeasurement (path : List String) (s : SavedStatistics)
  | writeRecord (path : List String) (r : BenchmarkRecord)
deriving DecidableEq

/-- Result of one benchmark_complete call. -/
inductive CompleteResult : Type where
  | ok
  | err (msg : String)
  | panicked
deriving DecidableEq

/-- Directory of one identity inside the data directory. -/
def dataDirFor (m : Model) (id : BenchmarkId) : List String :=
  m.data_directory ++ [renderName id.directory_name]

/-- Measurement file name pattern embedding the timestamp (model.rs). -/
def measurementFileName (now : Nat) : String :=
  "measurement_" ++ toString now ++ ".cbor"

/-- Full path of the new measurement file. -/
def measurementPath (m : Model) (id : BenchmarkId) (now : Nat) : List String :=
  dataDirFor m id ++ [measurementFileName now]

/-- Full path of the pointer record file. -/
def recordPath (m : Model) (id : BenchmarkId) : List String :=
  dataDirFor m id ++ ["benchmark.cbor"]

/-- Model.benchmark_complete (model.rs): create the identity directory, write
the snapshot to a fresh measurement file, overwrite the pointer record, then
update the in-memory entry; any file failure aborts with path context before
the in-memory update, and a missing index entry panics after the writes.
Returns the result, the resulting store, and the file events that occurred. -/
def Model.benchmark_complete (m : Model) (id : BenchmarkId)
    (analysis_results : MeasurementData) (now : Nat) (fs : FsOutcome) :
    CompleteResult × Model × List FsEvent :=
  let dir := dataDirFor m id
  if fs.create_dir_ok = false then
    (CompleteResult.err ("Failed to create directory " ++ renderPath dir), m, [])
  else
    let saved_stats := savedStatsOf now analysis_results
    let measurement_path := measurementPath m id now
    if fs.create_measurement_ok = false then
      (CompleteResult.err
          ("Failed to create measurement file " ++ renderPath measurement_path),
        m, [FsEvent.createDir dir])
    else if fs.write_measurement_ok = false then
      (CompleteResult.err
          ("Failed to save measurements to file " ++ renderPath measurement_path),
        m, [FsEvent.createDir dir, FsEvent.createFile measurement_path])
    else
      let record : BenchmarkRecord :=
        { id := SavedBenchmarkId.ofBenchmarkId id
          latest_record := measurementFileName now }
      let benchmark_path := recordPath m id
      if fs.create_record_ok = false then
        (CompleteResult.err
            ("Failed to create benchmark file " ++ renderPath benchmark_path),
          m,
          [FsEvent.createDir dir, FsEvent.createFile measurement_path,
            FsEvent.writeMeasurement measurement_path saved_stats])
      else if fs.write_record_ok = false then
        (CompleteResult.err
            ("Failed to save benchmark file " ++ renderPath benchmark_path),
          m,
          [FsEvent.createDir dir, FsEvent.createFile measurement_path,
            FsEvent.writeMeasurement measurement_path saved_stats,
            FsEvent.createFile benchmark_path])
      else
        let events :=
          [FsEvent.createDir dir, FsEvent.createFile measurement_path,
            FsEvent.writeMeasurement measurement_path saved_stats,
            FsEvent.createFile benchmark_path,
            FsEvent.writeRecord benchmark_path record]
        match lhmGet strKey m.groups id.group_id with
        | none => (CompleteResult.panicked, m, events)
        | some g =>
          match lhmGet keyOf g.benchmarks id with
          | none => (CompleteResult.panicked, m, events)
          | some b =>
            let g2 :=
              { g with
                  benchmarks :=
                    lhmInsert keyOf g.benchmarks id (b.add_stats saved_stats) }
            (CompleteResult.ok,
              { m with groups := lhmInsert strKey m.groups id.group_id g2 },
              events)

/-- BenchTarget (bench_target.rs): one runnable benchmark executable. -/
structure BenchTarget : Type where
  name : String
  executable : String
deriving DecidableEq

/-- Target (compile.rs): the part of the cargo artifact message we use. -/
structure Target : Type where
  name : String
  kind : List String
deriving DecidableEq

/-- Message (compile.rs): the cargo message variants we recognize. -/
inductive Message : Type where
  | compilerArtifact (target : Target) (executable : Option String)
  | compilerMessage
  | buildScriptExecuted
  | buildFinished
deriving DecidableEq

/-- Exit status of a child process. -/
structure ExitStatus : Type where
  success : Bool
  code : Int
deriving DecidableEq

/-- World oracle for one run of compile: the decoded message stream of the
primary invocation (each item either a message or a decode failure), the
primary exit status, and whether each spawn or wait succeeds. -/
structure CompileWorld : Type where
  spawn1_ok : Bool
  stream : List (Except String Message)
  wait1_ok : Bool
  exit1 : ExitStatus
  spawn2_ok : Bool
  wait2_ok : Bool
  exit2 : ExitStatus

/-- Outcome of compile. -/
inductive CompileOutcome : Type where
  | ok (targets : List BenchTarget)
  | spawnError
  | ioError (msg : String)
  | parseError (msg : String)
  | compileFailed (status : ExitStatus)
deriving DecidableEq

/-- Collects the benchmark artifacts from the message stream exactly as the
loop in compile does: fail fast on a decode error, push compiler-artifact
messages whose kind contains bench, test or lib and which carry an
executable. -/
def collectBenchmarks :
    List (Except String Message) → Except String (List BenchTarget)
  | [] => Except.ok []
  | Except.error e :: _ => Except.error e
  | Except.ok (Message.compilerArtifact target executable) :: rest =>
    if target.kind.any fun kind =>
        kind == "bench" || kind == "test" || kind == "lib" then
      match executable with
      | some e =>
        (collectBenchmarks rest).map fun l =>
          { name := target.name, executable := e } :: l
      | none => collectBenchmarks rest
    else collectBenchmarks rest
  | Except.ok Message.compilerMessage :: rest => collectBenchmarks rest
  | Except.ok Message.buildScriptExecuted :: rest => collectBenchmarks rest
  | Except.ok Message.buildFinished :: rest => collectBenchmarks rest

/-- compile (compile.rs): spawn cargo bench in structured mode, collect the
benchmark targets from the stream, and on a failed primary exit run one plain
diagnostic invocation before failing with the primary exit status. The second
component counts the external command invocations performed. -/
def compile (w : CompileWorld) : CompileOutcome × Nat :=
  if w.spawn1_ok = false then (CompileOutcome.spawnError, 0)
  else
    match collectBenchmarks w.stream with
    | Except.error e =>
      (CompileOutcome.parseError ("Failed to parse message from cargo: " ++ e),
        1)
    | Except.ok benchmarks =>
      if w.wait1_ok = false then
        (CompileOutcome.ioError "Cargo compilation failed in an unexpected way",
          1)
      else if w.exit1.success = false then
        if w.spawn2_ok = false then (CompileOutcome.spawnError, 1)
        else if w.wait2_ok = false then
          (CompileOutcome.ioError "Failed to wait for diagnostic run", 2)
        else (CompileOutcome.compileFailed w.exit1, 2)
      else (CompileOutcome.ok benchmarks, 1)

/-- Classification written from the specification text: exactly the artifact
messages whose kind-tags intersect the set of bench, test and lib and which
carry an executable path become BenchTargets, in arrival order. -/
def specTargets (msgs : List Message) : List BenchTarget :=
  msgs.filterMap fun msg =>
    match msg with
    | Message.compilerArtifact target (some e) =>
      if target.kind.any (fun kind => kind ∈ ["bench", "test", "lib"]) then
        some { name := target.name, executable := e }
      else none
    | _ => none

/-- Checks that every pointer-record write in an event list is preceded by a
successful measurement write. -/
def pointerAfterMeasurement : Bool → List FsEvent → Bool
  | _, [] => true
  | _, FsEvent.writeMeasurement _ _ :: t => pointerAfterMeasurement true t
  | seen, FsEvent.writeRecord _ _ :: t => seen && pointerAfterMeasurement seen t
  | seen, FsEvent.createDir _ :: t => pointerAfterMeasurement seen t
  | seen, FsEvent.createFile _ :: t => pointerAfterMeasurement seen t

/-- Store operations performed during one run after load. -/
inductive StoreOp : Type where
  | register (target : String) (id : BenchmarkId)
  | register_group (target : String) (name : String)

/-- Applies one store operation. -/
def applyOp (m : Model) : StoreOp → Model
  | StoreOp.register target id => (m.add_benchmark_id target id).1
  | StoreOp.register_group target name => m.add_benchmark_group target name

/-- Applies a sequence of store operations in order. -/
def applyOps (m : Model) (ops : List StoreOp) : Model :=
  ops.foldl applyOp m

section LHMLemmas

variable {K V : Type} {α : Type} [DecidableEq α] (key : K → α)

theorem lhmGet_lhmInsert_eq (l : List (K × V)) (k₁ k₂ : K) (v : V)
    (h : key k₁ = key k₂) : lhmGet key (lhmInsert key l k₁ v) k₂ = some v := by
  induction l with
  | nil => simp [lhmGet, lhmInsert, h]
  | cons e t ih =>
    by_cases he : key e.1 = key k₁
    · have he2 : key e.1 = key k₂ := he.trans h
      simp [lhmInsert, he, lhmGet, he2, h]
    · have he2 : ¬ key e.1 = key k₂ := fun hc => he (hc.trans h.symm)
      simp [lhmInsert, he, lhmGet, he2, ih]

theorem lhmGet_lhmInsert_ne (l : List (K × V)) (k₁ k₂ : K) (v : V)
    (h : ¬ key k₁ = key k₂) :
    lhmGet key (lhmInsert key l k₁ v) k₂ = lhmGet key l k₂ := by
  have hsym : ¬ key k₂ = key k₁ := fun hc => h hc.symm
  induction l with
  | nil => simp [lhmGet, lhmInsert, h]
  | cons e t ih =>
    by_cases he : key e.1 = key k₁
    · have he2 : ¬ key e.1 = key k₂ := fun hc => h (he.symm.trans hc)
      simp [lhmInsert, he, lhmGet, he2, h, hsym]
    · by_cases he2 : key e.1 = key k₂ <;>
        simp [lhmInsert, he, lhmGet, he2, ih, h, hsym]

theorem lhmGet_lhmRemove_ne (l : List (K × V)) (k₁ k₂ : K)
    (h : ¬ key k₁ = key k₂) :
    lhmGet key (lhmRemove key l k₁).2 k₂ = lhmGet key l k₂ := by
  have hsym : ¬ key k₂ = key k₁ := fun hc => h hc.symm
  induction l with
  | nil => simp [lhmGet, lhmRemove]
  | cons e t ih =>
    by_cases he : key e.1 = key k₁
    · have he2 : ¬ key e.1 = key k₂ := fun hc => h (he.symm.trans hc)
      simp [lhmRemove, he, lhmGet, he2, h, hsym]
    · by_cases he2 : key e.1 = key k₂ <;>
        simp [lhmRemove, he, lhmGet, he2, ih, h, hsym]

theorem lhmRemove_fst (l : List (K × V)) (k : K) :
    (lhmRemove key l k).1 = lhmGet key l k := by
  induction l with
  | nil => simp [lhmGet, lhmRemove]
  | cons e t ih =>
    by_cases he : key e.1 = key k <;> simp [lhmRemove, he, lhmGet, ih]

theorem lhmGet_lhmInsert_isSome (l : List (K × V)) (k₁ k₂ : K) (v : V)
    (h : (lhmGet key l k₂).isSome = true) :
    (lhmGet key (lhmInsert key l k₁ v) k₂).isSome = true := by
  by_cases hk : key k₁ = key k₂
  · rw [lhmGet_lhmInsert_eq key l k₁ k₂ v hk]; rfl
  · rw [lhmGet_lhmInsert_ne key l k₁ k₂ v hk]; exact h

theorem lhmInsert_of_no_match (l : List (K × V)) (k : K) (v : V)
    (h : ∀ e ∈ l, ¬ key e.1 = key k) :
    lhmInsert key l k v = l ++ [(k, v)] := by
  induction l with
  | nil => simp [lhmInsert]
  | cons e t ih =>
    have he : ¬ key e.1 = key k := h e (List.mem_cons_self e t)
    simp only [lhmInsert, he, if_false, List.cons_append, List.cons.injEq,
      true_and]
    exact ih fun x hx => h x (List.mem_cons_of_mem e hx)

theorem lhmRemove_no_match (l : List (K × V)) (k : K)
    (hn : (l.map fun e => key e.1).Nodup) :
    ∀ e ∈ (lhmRemove key l k).2, ¬ key e.1 = key k := by
  induction l with
  | nil => simp [lhmRemove]
  | cons e t ih =>
    simp only [List.map_cons, List.nodup_cons, List.mem_map] at hn
    by_cases he : key e.1 = key k
    · intro x hx hc
      simp only [lhmRemove, he, if_true] at hx
      exact hn.1 ⟨x, hx, hc.trans he.symm⟩
    · intro x hx hc
      simp only [lhmRemove, he, if_false] at hx
      rcases List.mem_cons.mp hx with hx | hx
      · exact he (by rw [hx] at hc; exact hc)
      · exact ih hn.2 x hx hc

theorem lhmRemove_map_sublist (l : List (K × V)) (k : K) :
    ((lhmRemove key l k).2.map fun e => key e.1).Sublist
      (l.map fun e => key e.1) := by
  induction l with
  | nil => simp [lhmRemove]
  | cons e t ih =>
    by_cases he : key e.1 = key k
    · simp only [lhmRemove, he, if_true, List.map_cons]
      exact (List.Sublist.refl _).cons _
    · simp only [lhmRemove, he, if_false, List.map_cons]
      exact ih.cons₂ _

end LHMLemmas

theorem mem_insertSet_self {β : Type} [DecidableEq β] (l : List β) (x : β) :
    x ∈ insertSet l x := by
  unfold insertSet
  by_cases h : x ∈ l
  · simp [h]
  · simp [h]

theorem filter_length_mono {β : Type} (l : List β) (p q : β → Bool)
    (h : ∀ x, q x = true → p x = true) :
    (l.filter q).length ≤ (l.filter p).length := by
  induction l with
  | nil => simp
  | cons a t ih =>
    by_cases hq : q a = true
    · simp [List.filter_cons, hq, h a hq, Nat.succ_le_succ ih]
    · have hq2 : q a = false := Bool.eq_false_iff.mpr hq
      by_cases hp : p a = true
      · simp only [List.filter_cons, hq2, hp, if_true, Bool.false_eq_true,
          if_false, List.length_cons]
        exact Nat.le_succ_of_le ih
      · have hp2 : p a = false := Bool.eq_false_iff.mpr hp
        simp [List.filter_cons, hq2, hp2, ih]

theorem filter_length_lt {β : Type} (l : List β) (p q : β → Bool)
    (h : ∀ x, q x = true → p x = true) (x : β) (hx : x ∈ l)
    (hp : p x = true) (hq : q x = false) :
    (l.filter q).length < (l.filter p).length := by
  induction l with
  | nil => cases hx
  | cons a t ih =>
    rcases List.mem_cons.mp hx with rfl | hx
    · simp only [List.filter_cons, hp, hq, if_true, Bool.false_eq_true,
        if_false, List.length_cons]
      exact Nat.lt_succ_of_le (filter_length_mono t p q h)
    · by_cases ha : q a = true
      · simp [List.filter_cons, ha, h a ha, Nat.succ_lt_succ (ih hx)]
      · have ha2 : q a = false := Bool.eq_false_iff.mpr ha
        by_cases hpa : p a = true
        · simp only [List.filter_cons, ha2, hpa, if_true, Bool.false_eq_true,
            if_false, List.length_cons]
          exact Nat.lt_succ_of_lt (ih hx)
        · have hpa2 : p a = false := Bool.eq_false_iff.mpr hpa
          simp [List.filter_cons, ha2, hpa2, ih hx]

theorem uniquifyFrom_not_mem (base : String) (taken : List DerivedName) :
    ∀ (fuel k : Nat),
      (taken.filter fun d => decide (d.base = base ∧ k ≤ d.suffix)).length <
        fuel →
      uniquifyFrom base taken fuel k ∉ taken := by
  intro fuel
  induction fuel with
  | zero => intro k h; exact absurd h (Nat.not_lt_zero _)
  | succ fuel ih =>
    intro k h
    by_cases hm : (⟨base, k⟩ : DerivedName) ∈ taken
    · simp only [uniquifyFrom, hm, if_true]
      apply ih
      have hlt :
          (taken.filter fun d =>
              decide (d.base = base ∧ k + 1 ≤ d.suffix)).length <
            (taken.filter fun d =>
              decide (d.base = base ∧ k ≤ d.suffix)).length := by
        apply filter_length_lt taken _ _ _ ⟨base, k⟩ hm
        · simp
        · simp
        · intro x hx
          simp only [decide_eq_true_eq] at hx ⊢
          exact ⟨hx.1, Nat.le_of_succ_le hx.2⟩
      exact Nat.lt_of_lt_of_le hlt (Nat.lt_succ_iff.mp h)
    · simp only [uniquifyFrom, hm, if_false]
      exact not_false

theorem uniquify_not_mem (n : DerivedName) (taken : List DerivedName) :
    uniquify n taken ∉ taken := by
  unfold uniquify
  by_cases hm : n ∈ taken
  · simp only [hm, if_true]
    apply uniquifyFrom_not_mem
    exact Nat.lt_succ_of_le (List.length_filter_le _ _)
  · simp only [hm, if_false]
    exact not_false

theorem kindCond_eq_mem (s : String) :
    (s == "bench" || s == "test" || s == "lib") =
      decide (s ∈ ["bench", "test", "lib"]) := by
  by_cases h1 : s = "bench" <;> by_cases h2 : s = "test" <;>
    by_cases h3 : s = "lib" <;> simp [h1, h2, h3]

theorem collectBenchmarks_map_ok (msgs : List Message) :
    collectBenchmarks (msgs.map Except.ok) = Except.ok (specTargets msgs) := by
  induction msgs with
  | nil => rfl
  | cons msg rest ih =>
    cases msg with
    | compilerArtifact target executable =>
      have hcond :
          (target.kind.any fun kind =>
              kind == "bench" || kind == "test" || kind == "lib") =
            target.kind.any fun kind =>
              decide (kind ∈ (["bench", "test", "lib"] : List String)) :=
        congrArg (List.any target.kind) (funext kindCond_eq_mem)
      cases executable with
      | some e =>
        simp only [List.map_cons, collectBenchmarks, specTargets,
          List.filterMap_cons, hcond, ih]
        split <;> simp [Except.map, specTargets]
      | none =>
        simp only [List.map_cons, collectBenchmarks, specTargets,
          List.filterMap_cons, hcond, ih]
        split <;> simp [specTargets]
    | compilerMessage =>
      simp [collectBenchmarks, specTargets, ih, List.filterMap_cons]
    | buildScriptExecuted =>
      simp [collectBenchmarks, specTargets, ih, List.filterMap_cons]
    | buildFinished =>
      simp [collectBenchmarks, specTargets, ih, List.filterMap_cons]

theorem collectBenchmarks_first_error (pre : List Message) (e : String)
    (rest : List (Except String Message)) :
    collectBenchmarks (pre.map Except.ok ++ Except.error e :: rest) =
      Except.error e := by
  induction pre with
  | nil => simp [collectBenchmarks]
  | cons msg t ih =>
    cases msg with
    | compilerArtifact target executable =>
      by_cases hk :
          (target.kind.any fun kind =>
            kind == "bench" || kind == "test" || kind == "lib") = true
      · cases executable with
        | some x => simp [collectBenchmarks, hk, ih, Except.map]
        | none => simp [collectBenchmarks, hk, ih]
      · have hk2 := Bool.eq_false_iff.mpr hk
        cases executable with
        | some x => simp [collectBenchmarks, hk2, ih, Except.map]
        | none => simp [collectBenchmarks, hk2, ih]
    | compilerMessage => simp [collectBenchmarks, ih]
    | buildScriptExecuted => simp [collectBenchmarks, ih]
    | buildFinished => simp [collectBenchmarks, ih]

/-- C3: when the primary cargo invocation spawns, its structured stream
decodes completely, and the process exits with failure, compile performs
exactly one extra diagnostic invocation (two invocations in total, never
more) and fails with CompileFailed carrying the primary exit status; the
diagnostic run, whose own exit status is universally quantified here, does
not influence the outcome. -/
theorem compile_failure_reruns_once (w : CompileWorld) (msgs : List Message)
    (h1 : w.spawn1_ok = true) (hs : w.stream = msgs.map Except.ok)
    (hw1 : w.wait1_ok = true) (hf : w.exit1.success = false)
    (h2 : w.spawn2_ok = true) (hw2 : w.wait2_ok = true) :
    compile w = (CompileOutcome.compileFailed w.exit1, 2) := by
  unfold compile
  rw [hs, collectBenchmarks_map_ok]
  simp [h1, hw1, hf, h2, hw2]

/-- Witness for compile_failure_reruns_once at a concrete failing world. -/
theorem compile_failure_reruns_once_witness :
    compile
        { spawn1_ok := true
          stream := [Except.ok Message.buildFinished]
          wait1_ok := true
          exit1 := { success := false, code := 101 }
          spawn2_ok := true
          wait2_ok := true
          exit2 := { success := true, code := 0 } } =
      (CompileOutcome.compileFailed { success := false, code := 101 }, 2) :=
  compile_failure_reruns_once _ [Message.buildFinished] rfl rfl rfl rfl rfl rfl

/-- C4: on a fully decodable stream with a successful build, compile returns
exactly the artifact messages whose kind-tags intersect the set of bench,
test and lib and which carry an executable path, as BenchTargets in arrival
order; all other messages, including bin artifacts and artifacts without an
executable, are skipped. -/
theorem compile_classifies_artifacts (w : CompileWorld) (msgs : List Message)
    (h1 : w.spawn1_ok = true) (hs : w.stream = msgs.map Except.ok)
    (hw1 : w.wait1_ok = true) (hok : w.exit1.success = true) :
    compile w = (CompileOutcome.ok (specTargets msgs), 1) := by
  unfold compile
  rw [hs, collectBenchmarks_map_ok]
  simp [h1, hw1, hok]

/-- Message stream of the spec's classification scenario: artifacts tagged
bench, test, lib and bin, the last with no comparable kind, plus a lib
artifact without an executable. -/
def classifyScenarioMsgs : List Message :=
  [Message.compilerArtifact ⟨"a", ["bench"]⟩ (some "exe-a"),
    Message.compilerArtifact ⟨"b", ["test"]⟩ (some "exe-b"),
    Message.compilerArtifact ⟨"c", ["lib"]⟩ (some "exe-c"),
    Message.compilerArtifact ⟨"d", ["bin"]⟩ (some "exe-d"),
    Message.compilerArtifact ⟨"e", ["lib"]⟩ none,
    Message.buildFinished]

/-- World in which the classification scenario stream arrives and the build
succeeds. -/
def classifyScenarioWorld : CompileWorld :=
  { spawn1_ok := true
    stream := classifyScenarioMsgs.map Except.ok
    wait1_ok := true
    exit1 := { success := true, code := 0 }
    spawn2_ok := true
    wait2_ok := true
    exit2 := { success := true, code := 0 } }

/-- Witness for compile_classifies_artifacts on the scenario world. -/
theorem compile_classifies_artifacts_witness :
    compile classifyScenarioWorld =
      (CompileOutcome.ok
          [{ name := "a", executable := "exe-a" },
            { name := "b", executable := "exe-b" },
            { name := "c", executable := "exe-c" }],
        1) := by
  rw [compile_classifies_artifacts classifyScenarioWorld classifyScenarioMsgs
      rfl rfl rfl rfl]
  simp [specTargets, classifyScenarioMsgs, List.filterMap_cons]

/-- C9: a stream whose first decode failure is reached makes compile fail
immediately with a parse error distinct from CompileFailed, returning no
target list and never starting the diagnostic re-run. -/
theorem compile_fails_fast_on_decode_error (w : CompileWorld)
    (pre : List Message) (e : String) (rest : List (Except String Message))
    (h1 : w.spawn1_ok = true)
    (hs : w.stream = pre.map Except.ok ++ Except.error e :: rest) :
    compile w =
      (CompileOutcome.parseError ("Failed to parse message from cargo: " ++ e),
        1) := by
  unfold compile
  rw [hs, collectBenchmarks_first_error]
  simp [h1]

/-- Witness for compile_fails_fast_on_decode_error: one good message, then a
malformed one, then further messages that are never reached. -/
theorem compile_fails_fast_on_decode_error_witness :
    compile
        { spawn1_ok := true
          stream :=
            [Except.ok Message.compilerMessage, Except.error "bad json",
              Except.ok Message.buildFinished]
          wait1_ok := true
          exit1 := { success := true, code := 0 }
          spawn2_ok := true
          wait2_ok := true
          exit2 := { success := true, code := 0 } } =
      (CompileOutcome.parseError "Failed to parse message from cargo: bad json",
        1) :=
  compile_fails_fast_on_decode_error _ [Message.compilerMessage] "bad json"
    [Except.ok Message.buildFinished] rfl rfl

/-- Sample identity used by concrete witnesses. -/
def sampleId : BenchmarkId :=
  { group_id := "g"
    function_id := some "f"
    value_str := none
    throughput := none
    directory_name := ⟨"g/f", 0⟩
    title := ⟨"g f", 0⟩ }

/-- Sample measurement used by concrete witnesses. -/
def sampleData : MeasurementData :=
  { iter_counts := [1, 2]
    sample_times := [3, 4]
    avg_times := [3, 2]
    absolute_estimates := ⟨7⟩
    throughput := none }

/-- Second sample measurement used by concrete witnesses. -/
def sampleData2 : MeasurementData :=
  { iter_counts := [5]
    sample_times := [6]
    avg_times := [7]
    absolute_estimates := ⟨8⟩
    throughput := none }

/-- Freshly loaded empty store used by concrete witnesses. -/
def emptyModel : Model :=
  { data_directory := ["home", "data", "main"]
    all_titles := []
    all_directories := []
    groups := [] }

/-- Store in which sampleId is registered with no prior history. -/
def registeredModel : Model :=
  { emptyModel with
      groups :=
        [("g", { benchmarks := [(sampleId, Benchmark.default)],
                 target := some "t" })] }

/-- C6: every file failure in benchmark_complete aborts the whole call with
an error message carrying the affected path, leaving the in-memory store
untouched, and in every execution the pointer record write happens only
after the measurement write has succeeded. -/
theorem benchmark_complete_error_paths (m : Model) (id : BenchmarkId)
    (ar : MeasurementData) (now : Nat) (fs : FsOutcome) :
    (fs.create_dir_ok = false →
      m.benchmark_complete id ar now fs =
        (CompleteResult.err
            ("Failed to create directory " ++ renderPath (dataDirFor m id)),
          m, [])) ∧
    (fs.create_dir_ok = true → fs.create_measurement_ok = false →
      m.benchmark_complete id ar now fs =
        (CompleteResult.err
            ("Failed to create measurement file " ++
              renderPath (measurementPath m id now)),
          m, [FsEvent.createDir (dataDirFor m id)])) ∧
    (fs.create_dir_ok = true → fs.create_measurement_ok = true →
      fs.write_measurement_ok = false →
      m.benchmark_complete id ar now fs =
        (CompleteResult.err
            ("Failed to save measurements to file " ++
              renderPath (measurementPath m id now)),
          m,
          [FsEvent.createDir (dataDirFor m id),
            FsEvent.createFile (measurementPath m id now)])) ∧
    (fs.create_dir_ok = true → fs.create_measurement_ok = true →
      fs.write_measurement_ok = true → fs.create_record_ok = false →
      m.benchmark_complete id ar now fs =
        (CompleteResult.err
            ("Failed to create benchmark file " ++ renderPath (recordPath m id)),
          m,
          [FsEvent.createDir (dataDirFor m id),
            FsEvent.createFile (measurementPath m id now),
            FsEvent.writeMeasurement (measurementPath m id now)
              (savedStatsOf now ar)])) ∧
    (fs.create_dir_ok = true → fs.create_measurement_ok = true →
      fs.write_measurement_ok = true → fs.create_record_ok = true →
      fs.write_record_ok = false →
      m.benchmark_complete id ar now fs =
        (CompleteResult.err
            ("Failed to save benchmark file " ++ renderPath (recordPath m id)),
          m,
          [FsEvent.createDir (dataDirFor m id),
            FsEvent.createFile (measurementPath m id now),
            FsEvent.writeMeasurement (measurementPath m id now)
              (savedStatsOf now ar),
            FsEvent.createFile (recordPath m id)])) ∧
    pointerAfterMeasurement false (m.benchmark_complete id ar now fs).2.2 =
      true := by
  refine ⟨?_, ?_, ?_, ?_, ?_, ?_⟩
  · intro h1
    simp [Model.benchmark_complete, h1]
  · intro h1 h2
    simp [Model.benchmark_complete, h1, h2]
  · intro h1 h2 h3
    simp [Model.benchmark_complete, h1, h2, h3]
  · intro h1 h2 h3 h4
    simp [Model.benchmark_complete, h1, h2, h3, h4]
  · intro h1 h2 h3 h4 h5
    simp [Model.benchmark_complete, h1, h2, h3, h4, h5]
  · obtain ⟨b1, b2, b3, b4, b5⟩ := fs
    cases b1 <;> cases b2 <;> cases b3 <;> cases b4 <;> cases b5 <;> try rfl
    unfold Model.benchmark_complete
    simp only [Bool.true_eq_false, if_false, if_neg]
    cases hG : lhmGet strKey m.groups id.group_id with
    | none => rfl
    | some g =>
      cases hB : lhmGet keyOf g.benchmarks id with
      | none =>
        simp only [hB]
        rfl
      | some b =>
        simp only [hB]
        rfl

/-- Witness for benchmark_complete_error_paths: a failed directory creation
aborts with the directory path in the message, no events, and the store
unchanged. -/
theorem benchmark_complete_error_paths_witness :
    registeredModel.benchmark_complete sampleId sampleData 5
        { create_dir_ok := false
          create_measurement_ok := true
          write_measurement_ok := true
          create_record_ok := true
          write_record_ok := true } =
      (CompleteResult.err
          ("Failed to create directory " ++
            renderPath (dataDirFor registeredModel sampleId)),
        registeredModel, []) :=
  (benchmark_complete_error_paths registeredModel sampleId sampleData 5
      { create_dir_ok := false
        create_measurement_ok := true
        write_measurement_ok := true
        create_record_ok := true
        write_record_ok := true }).1 rfl

/-- C10: benchmark_complete assumes the identity was entered into the index
by registration or load; with that precondition the unwrap never panics (for
any file outcome), while for an unregistered identity the call panics, and
it does so only after both the measurement file and the pointer record were
written. -/
theorem benchmark_complete_requires_registration :
    (∀ (m : Model) (id : BenchmarkId) (ar : MeasurementData) (now : Nat)
        (fs : FsOutcome),
      m.contains_benchmark id = true →
      (m.benchmark_complete id ar now fs).1 ≠ CompleteResult.panicked) ∧
    (∀ (m : Model) (id : BenchmarkId) (ar : MeasurementData) (now : Nat),
      m.contains_benchmark id = false →
      m.benchmark_complete id ar now FsOutcome.allOk =
        (CompleteResult.panicked, m,
          [FsEvent.createDir (dataDirFor m id),
            FsEvent.createFile (measurementPath m id now),
            FsEvent.writeMeasurement (measurementPath m id now)
              (savedStatsOf now ar),
            FsEvent.createFile (recordPath m id),
            FsEvent.writeRecord (recordPath m id)
              { id := SavedBenchmarkId.ofBenchmarkId id
                latest_record := measurementFileName now }])) := by
  constructor
  · intro m id ar now fs h
    have hsome : (m.get_benchmark id).isSome = true := h
    rcases hG : lhmGet strKey m.groups id.group_id with _ | g
    · rw [Model.get_benchmark, hG] at hsome
      simp at hsome
    · rcases hB : lhmGet keyOf g.benchmarks id with _ | b
      · rw [Model.get_benchmark, hG] at hsome
        simp [hB] at hsome
      · obtain ⟨b1, b2, b3, b4, b5⟩ := fs
        cases b1 <;> cases b2 <;> cases b3 <;> cases b4 <;> cases b5 <;>
          simp [Model.benchmark_complete, hG, hB]
  · intro m id ar now h
    have hnone : m.get_benchmark id = none := by
      rcases he : m.get_benchmark id with _ | b
      · rfl
      · rw [Model.contains_benchmark, he] at h
        simp at h
    rcases hG : lhmGet strKey m.groups id.group_id with _ | g
    · simp [Model.benchmark_complete, FsOutcome.allOk, hG]
    · have hB : lhmGet keyOf g.benchmarks id = none := by
        rw [Model.get_benchmark, hG] at hnone
        simpa using hnone
      simp [Model.benchmark_complete, FsOutcome.allOk, hG, hB]

/-- Witness for benchmark_complete_requires_registration: a registered
identity never hits the panic, an unregistered one panics after the writes. -/
theorem benchmark_complete_requires_registration_witness :
    (registeredModel.benchmark_complete sampleId sampleData 5
          FsOutcome.allOk).1 ≠ CompleteResult.panicked ∧
    (emptyModel.benchmark_complete sampleId sampleData 5 FsOutcome.allOk).1 =
      CompleteResult.panicked := by
  constructor
  · exact
      benchmark_complete_requires_registration.1 registeredModel sampleId
        sampleData 5 FsOutcome.allOk (by decide)
  · rw [benchmark_complete_requires_registration.2 emptyModel sampleId
        sampleData 5 (by decide)]

theorem benchmark_complete_ok_state (m : Model) (id : BenchmarkId)
    (ar : MeasurementData) (now : Nat) (g : BenchmarkGroup) (b : Benchmark)
    (hG : lhmGet strKey m.groups id.group_id = some g)
    (hB : lhmGet keyOf g.benchmarks id = some b) :
    m.benchmark_complete id ar now FsOutcome.allOk =
      (CompleteResult.ok,
        { m with
            groups :=
              lhmInsert strKey m.groups id.group_id
                { g with
                    benchmarks :=
                      lhmInsert keyOf g.benchmarks id
                        (b.add_stats (savedStatsOf now ar)) } },
        [FsEvent.createDir (dataDirFor m id),
          FsEvent.createFile (measurementPath m id now),
          FsEvent.writeMeasurement (measurementPath m id now)
            (savedStatsOf now ar),
          FsEvent.createFile (recordPath m id),
          FsEvent.writeRecord (recordPath m id)
            { id := SavedBenchmarkId.ofBenchmarkId id
              latest_record := measurementFileName now }]) := by
  simp [Model.benchmark_complete, FsOutcome.allOk, hG, hB]

/-- C1: for an identity registered with no prior history, one successful
record_completion makes get_last_sample return exactly the snapshot just
written to the measurement file, and a second record_completion makes
get_last_sample return the second snapshot while the entry's previous_stats
holds the first. -/
theorem record_completion_roundtrip (m : Model) (id : BenchmarkId)
    (ar1 ar2 : MeasurementData) (t1 t2 : Nat) (g : BenchmarkGroup)
    (b : Benchmark) (hG : lhmGet strKey m.groups id.group_id = some g)
    (hB : lhmGet keyOf g.benchmarks id = some b)
    (hfresh : b.latest_stats = none) (hfresh2 : b.previous_stats = none) :
    (m.benchmark_complete id ar1 t1 FsOutcome.allOk).1 = CompleteResult.ok ∧
    FsEvent.writeMeasurement (measurementPath m id t1) (savedStatsOf t1 ar1) ∈
      (m.benchmark_complete id ar1 t1 FsOutcome.allOk).2.2 ∧
    (m.benchmark_complete id ar1 t1 FsOutcome.allOk).2.1.get_last_sample id =
      some (savedStatsOf t1 ar1) ∧
    ((m.benchmark_complete id ar1 t1
          FsOutcome.allOk).2.1.benchmark_complete id ar2 t2
        FsOutcome.allOk).1 = CompleteResult.ok ∧
    ((m.benchmark_complete id ar1 t1
          FsOutcome.allOk).2.1.benchmark_complete id ar2 t2
        FsOutcome.allOk).2.1.get_last_sample id =
      some (savedStatsOf t2 ar2) ∧
    (((m.benchmark_complete id ar1 t1
            FsOutcome.allOk).2.1.benchmark_complete id ar2 t2
          FsOutcome.allOk).2.1.get_benchmark id).map Benchmark.previous_stats =
      some (some (savedStatsOf t1 ar1)) := by
  have h1 := benchmark_complete_ok_state m id ar1 t1 g b hG hB
  rw [h1]
  have hG1 :
      lhmGet strKey
          (lhmInsert strKey m.groups id.group_id
            { g with
                benchmarks :=
                  lhmInsert keyOf g.benchmarks id
                    (b.add_stats (savedStatsOf t1 ar1)) })
          id.group_id =
        some
          { g with
              benchmarks :=
                lhmInsert keyOf g.benchmarks id
                  (b.add_stats (savedStatsOf t1 ar1)) } :=
    lhmGet_lhmInsert_eq strKey m.groups id.group_id id.group_id _ rfl
  have hB1 :
      lhmGet keyOf
          (lhmInsert keyOf g.benchmarks id (b.add_stats (savedStatsOf t1 ar1)))
          id =
        some (b.add_stats (savedStatsOf t1 ar1)) :=
    lhmGet_lhmInsert_eq keyOf g.benchmarks id id _ rfl
  have h2 :=
    benchmark_complete_ok_state
      { m with
          groups :=
            lhmInsert strKey m.groups id.group_id
              { g with
                  benchmarks :=
                    lhmInsert keyOf g.benchmarks id
                      (b.add_stats (savedStatsOf t1 ar1)) } }
      id ar2 t2
      { g with
          benchmarks :=
            lhmInsert keyOf g.benchmarks id
              (b.add_stats (savedStatsOf t1 ar1)) }
      (b.add_stats (savedStatsOf t1 ar1)) hG1 hB1
  rw [h2]
  refine ⟨rfl, by simp, ?_, rfl, ?_, ?_⟩
  · simp only [Model.get_last_sample]
    rw [hG1]
    simp only [Option.some_bind]
    rw [hB1]
    simp [Benchmark.add_stats]
  · simp only [Model.get_last_sample]
    rw [lhmGet_lhmInsert_eq strKey _ id.group_id id.group_id _ rfl]
    simp only [Option.some_bind]
    rw [lhmGet_lhmInsert_eq keyOf _ id id _ rfl]
    simp [Benchmark.add_stats]
  · simp only [Model.get_benchmark]
    rw [lhmGet_lhmInsert_eq strKey _ id.group_id id.group_id _ rfl]
    simp only [Option.some_bind]
    rw [lhmGet_lhmInsert_eq keyOf _ id id _ rfl]
    simp [Benchmark.add_stats]

/-- Witness for record_completion_roundtrip on the concrete registered
store, with two successive completions at timestamps 5 and 6. -/
theorem record_completion_roundtrip_witness :
    (registeredModel.benchmark_complete sampleId sampleData 5
          FsOutcome.allOk).1 = CompleteResult.ok ∧
    FsEvent.writeMeasurement (measurementPath registeredModel sampleId 5)
        (savedStatsOf 5 sampleData) ∈
      (registeredModel.benchmark_complete sampleId sampleData 5
          FsOutcome.allOk).2.2 ∧
    (registeredModel.benchmark_complete sampleId sampleData 5
          FsOutcome.allOk).2.1.get_last_sample sampleId =
      some (savedStatsOf 5 sampleData) ∧
    ((registeredModel.benchmark_complete sampleId sampleData 5
          FsOutcome.allOk).2.1.benchmark_complete sampleId sampleData2 6
        FsOutcome.allOk).1 = CompleteResult.ok ∧
    ((registeredModel.benchmark_complete sampleId sampleData 5
          FsOutcome.allOk).2.1.benchmark_complete sampleId sampleData2 6
        FsOutcome.allOk).2.1.get_last_sample sampleId =
      some (savedStatsOf 6 sampleData2) ∧
    (((registeredModel.benchmark_complete sampleId sampleData 5
            FsOutcome.allOk).2.1.benchmark_complete sampleId sampleData2 6
          FsOutcome.allOk).2.1.get_benchmark sampleId).map
        Benchmark.previous_stats =
      some (some (savedStatsOf 5 sampleData)) :=
  record_completion_roundtrip registeredModel sampleId sampleData sampleData2
    5 6 { benchmarks := [(sampleId, Benchmark.default)], target := some "t" }
    Benchmark.default (by decide) (by decide) rfl rfl

theorem lhmGet_congr {K V : Type} {α : Type} [DecidableEq α] (key : K → α)
    (l : List (K × V)) (k₁ k₂ : K) (h : key k₁ = key k₂) :
    lhmGet key l k₁ = lhmGet key l k₂ := by
  induction l with
  | nil => rfl
  | cons e t ih => simp [lhmGet, h, ih]

theorem get_benchmark_congr (m : Model) (id1 id2 : BenchmarkId)
    (hkey : keyOf id1 = keyOf id2) :
    m.get_benchmark id1 = m.get_benchmark id2 := by
  have hgid : id1.group_id = id2.group_id := congrArg (fun p => p.1) hkey
  unfold Model.get_benchmark
  rw [hgid]
  cases lhmGet strKey m.groups id2.group_id with
  | none => rfl
  | some g => simp [lhmGet_congr keyOf g.benchmarks id1 id2 hkey]

theorem get_benchmark_eq_some (m : Model) (id : BenchmarkId) (b : Benchmark)
    (h : m.get_benchmark id = some b) :
    ∃ g, lhmGet strKey m.groups id.group_id = some g ∧
      lhmGet keyOf g.benchmarks id = some b := by
  unfold Model.get_benchmark at h
  cases hg : lhmGet strKey m.groups id.group_id with
  | none => rw [hg] at h; simp at h
  | some g =>
    rw [hg] at h
    simp only [Option.some_bind] at h
    exact ⟨g, rfl, h⟩

theorem add_benchmark_id_fresh (m : Model) (t : String) (id : BenchmarkId)
    (hfresh : m.get_benchmark id = none) :
    (m.add_benchmark_id t id).2.2 = [] ∧
    (m.add_benchmark_id t id).1.get_benchmark id =
      some { latest_stats := none, previous_stats := none,
             target := some t } := by
  unfold Model.get_benchmark at hfresh
  cases hMG : lhmGet strKey m.groups id.group_id with
  | none =>
    constructor
    · simp [Model.add_benchmark_id, BenchmarkId.ensure_title_unique,
        BenchmarkId.ensure_directory_name_unique, hMG, BenchmarkGroup.default,
        lhmRemove, Benchmark.default]
    · simp only [Model.add_benchmark_id, BenchmarkId.ensure_title_unique,
        BenchmarkId.ensure_directory_name_unique, hMG, Option.getD_none,
        BenchmarkGroup.default, lhmRemove, Option.getD_some]
      simp only [Model.get_benchmark]
      rw [lhmGet_lhmInsert_eq strKey m.groups _ _ _ (by rfl)]
      simp only [Option.some_bind]
      rw [lhmGet_lhmInsert_eq keyOf _ _ id _ (by rfl)]
      simp [Benchmark.default]
  | some g0 =>
    rw [hMG] at hfresh
    simp only [Option.some_bind] at hfresh
    have hMB2 :
        lhmGet keyOf g0.benchmarks
            ((id.ensure_directory_name_unique
                m.all_directories).ensure_title_unique m.all_titles) =
          none := by
      rw [lhmGet_congr keyOf g0.benchmarks _ id (by rfl)]
      exact hfresh
    constructor
    · simp [Model.add_benchmark_id, BenchmarkId.ensure_title_unique,
        BenchmarkId.ensure_directory_name_unique, hMG, lhmRemove_fst] at hMB2 ⊢
      simp [hMB2, lhmRemove_fst, Benchmark.default]
    · simp only [Model.add_benchmark_id, BenchmarkId.ensure_title_unique,
        BenchmarkId.ensure_directory_name_unique, hMG, Option.getD_some]
      simp only [BenchmarkId.ensure_title_unique,
        BenchmarkId.ensure_directory_name_unique] at hMB2
      simp only [lhmRemove_fst, hMB2, Option.getD_none]
      simp only [Model.get_benchmark]
      rw [lhmGet_lhmInsert_eq strKey m.groups _ _ _ (by rfl)]
      simp only [Option.some_bind]
      rw [lhmGet_lhmInsert_eq keyOf _ _ id _ (by rfl)]
      simp [Benchmark.default]

theorem add_benchmark_id_present (m : Model) (t t0 : String)
    (id : BenchmarkId) (g0 : BenchmarkGroup) (b : Benchmark)
    (hMG : lhmGet strKey m.groups id.group_id = some g0)
    (hMB : lhmGet keyOf g0.benchmarks id = some b) (hT : b.target = some t0) :
    (m.add_benchmark_id t id).2.2 =
      [warnMultiple (m.add_benchmark_id t id).2.1 t0] ∧
    (m.add_benchmark_id t id).1.get_benchmark id = some b := by
  have hMB2 :
      lhmGet keyOf g0.benchmarks
          ((id.ensure_directory_name_unique
              m.all_directories).ensure_title_unique m.all_titles) =
        some b := by
    rw [lhmGet_congr keyOf g0.benchmarks _ id (by rfl)]
    exact hMB
  constructor
  · simp only [Model.add_benchmark_id, BenchmarkId.ensure_title_unique,
      BenchmarkId.ensure_directory_name_unique, hMG, Option.getD_some] at hMB2 ⊢
    simp [lhmRemove_fst, hMB2, hT]
  · simp only [Model.add_benchmark_id, BenchmarkId.ensure_title_unique,
      BenchmarkId.ensure_directory_name_unique, hMG, Option.getD_some] at hMB2 ⊢
    simp only [lhmRemove_fst, hMB2, Option.getD_some]
    simp only [Model.get_benchmark]
    rw [lhmGet_lhmInsert_eq strKey m.groups _ _ _ (by rfl)]
    simp only [Option.some_bind]
    rw [lhmGet_lhmInsert_eq keyOf _ _ id _ (by rfl)]
    simp [hT]

/-- Counterexample to C2 as stated: registering the same identity twice from
the SAME target name does emit the uniqueness warning on the second
registration, because add_benchmark_id warns whenever the entry already has a
recorded target, without comparing it to the current target. -/
theorem same_target_reregistration_warns :
    ((emptyModel.add_benchmark_id "t" sampleId).1.add_benchmark_id "t"
        sampleId).2.2 ≠ ([] : List String) := by
  decide

/-- C2 as amended: registering a fresh identity emits no warning; a second
registration of the same identity emits the uniqueness warning exactly once
regardless of whether the target name is the same or different, and the
first registration's target name remains the attributed owner. -/
theorem reregistration_warns_once_keeps_first_target (m : Model)
    (t1 t2 : String) (id1 id2 : BenchmarkId) (hkey : keyOf id1 = keyOf id2)
    (hfresh : m.get_benchmark id1 = none) :
    (m.add_benchmark_id t1 id1).2.2 = [] ∧
    ((m.add_benchmark_id t1 id1).1.add_benchmark_id t2 id2).2.2 =
      [warnMultiple
          ((m.add_benchmark_id t1 id1).1.add_benchmark_id t2 id2).2.1 t1] ∧
    ((((m.add_benchmark_id t1 id1).1.add_benchmark_id t2 id2).1.get_benchmark
          id1).map Benchmark.target) = some (some t1) := by
  obtain ⟨hw1, hb1⟩ := add_benchmark_id_fresh m t1 id1 hfresh
  have hb1x :
      (m.add_benchmark_id t1 id1).1.get_benchmark id2 =
        some { latest_stats := none, previous_stats := none,
               target := some t1 } := by
    rw [← get_benchmark_congr _ id1 id2 hkey]
    exact hb1
  obtain ⟨g1, hG1, hB1⟩ := get_benchmark_eq_some _ _ _ hb1x
  obtain ⟨hw2, hb2⟩ :=
    add_benchmark_id_present (m.add_benchmark_id t1 id1).1 t2 t1 id2 g1
      { latest_stats := none, previous_stats := none, target := some t1 }
      hG1 hB1 rfl
  refine ⟨hw1, hw2, ?_⟩
  rw [get_benchmark_congr _ id1 id2 hkey, hb2]
  rfl

/-- Witness for reregistration_warns_once_keeps_first_target on the empty
store with two different target names. -/
theorem reregistration_warns_once_keeps_first_target_witness :
    (emptyModel.add_benchmark_id "t1" sampleId).2.2 = [] ∧
    ((emptyModel.add_benchmark_id "t1" sampleId).1.add_benchmark_id "t2"
          sampleId).2.2 =
      [warnMultiple
          ((emptyModel.add_benchmark_id "t1" sampleId).1.add_benchmark_id "t2"
              sampleId).2.1 "t1"] ∧
    ((((emptyModel.add_benchmark_id "t1" sampleId).1.add_benchmark_id "t2"
            sampleId).1.get_benchmark sampleId).map Benchmark.target) =
      some (some "t1") :=
  reregistration_warns_once_keeps_first_target emptyModel "t1" "t2" sampleId
    sampleId rfl (by decide)

theorem add_contains_self (m : Model) (t : String) (id : BenchmarkId) :
    (m.add_benchmark_id t id).1.contains_benchmark id = true := by
  unfold Model.contains_benchmark Model.get_benchmark
  simp only [Model.add_benchmark_id, BenchmarkId.ensure_directory_name_unique,
    BenchmarkId.ensure_title_unique]
  rw [lhmGet_lhmInsert_eq strKey m.groups _ id.group_id _ (by rfl)]
  simp only [Option.some_bind]
  rw [lhmGet_lhmInsert_eq keyOf _ _ id _ (by rfl)]
  rfl

theorem contains_after_add (m : Model) (t : String) (id j : BenchmarkId)
    (h : m.contains_benchmark j = true) :
    (m.add_benchmark_id t id).1.contains_benchmark j = true := by
  unfold Model.contains_benchmark Model.get_benchmark at h ⊢
  rcases hg : lhmGet strKey m.groups j.group_id with _ | g
  · rw [hg] at h
    simp at h
  · rw [hg] at h
    simp only [Option.some_bind] at h
    simp only [Model.add_benchmark_id, BenchmarkId.ensure_directory_name_unique,
      BenchmarkId.ensure_title_unique]
    by_cases hj : id.group_id = j.group_id
    · rw [lhmGet_lhmInsert_eq strKey m.groups _ j.group_id _ (by exact hj)]
      simp only [Option.some_bind]
      by_cases hk : keyOf id = keyOf j
      · rw [lhmGet_lhmInsert_eq keyOf _ _ j _ (by exact hk)]
        rfl
      · rw [lhmGet_lhmInsert_ne keyOf _ _ j _ (by exact hk)]
        rw [lhmGet_lhmRemove_ne keyOf _ _ j (by exact hk)]
        have hgx : lhmGet strKey m.groups id.group_id = some g := by
          rw [hj]
          exact hg
        simp only [hgx, Option.getD_some]
        exact h
    · rw [lhmGet_lhmInsert_ne strKey m.groups _ j.group_id _ (by exact hj)]
      rw [hg]
      simp only [Option.some_bind]
      exact h

theorem contains_after_add_group (m : Model) (t name : String)
    (j : BenchmarkId) (h : m.contains_benchmark j = true) :
    (m.add_benchmark_group t name).contains_benchmark j = true := by
  unfold Model.contains_benchmark Model.get_benchmark at h ⊢
  rcases hg : lhmGet strKey m.groups j.group_id with _ | g
  · rw [hg] at h
    simp at h
  · rw [hg] at h
    simp only [Option.some_bind] at h
    simp only [Model.add_benchmark_group]
    by_cases hn : name = j.group_id
    · rw [lhmGet_lhmInsert_eq strKey _ name j.group_id _ (by exact hn)]
      simp only [Option.some_bind]
      have hrem : (lhmRemove strKey m.groups name).1 = some g := by
        rw [lhmRemove_fst, lhmGet_congr strKey m.groups name j.group_id
          (by exact hn)]
        exact hg
      simp only [hrem, Option.getD_some]
      exact h
    · rw [lhmGet_lhmInsert_ne strKey _ name j.group_id _ (by exact hn)]
      rw [lhmGet_lhmRemove_ne strKey m.groups name j.group_id (by exact hn)]
      rw [hg]
      simp only [Option.some_bind]
      exact h

theorem group_after_add (m : Model) (t : String) (id : BenchmarkId)
    (gid : String) (h : m.contains_group gid = true) :
    (m.add_benchmark_id t id).1.contains_group gid = true := by
  unfold Model.contains_group at h ⊢
  simp only [Model.add_benchmark_id, BenchmarkId.ensure_directory_name_unique,
    BenchmarkId.ensure_title_unique]
  exact lhmGet_lhmInsert_isSome strKey m.groups _ gid _ h

theorem group_after_add_group (m : Model) (t name gid : String)
    (h : m.contains_group gid = true) :
    (m.add_benchmark_group t name).contains_group gid = true := by
  unfold Model.contains_group at h ⊢
  simp only [Model.add_benchmark_group]
  by_cases hn : name = gid
  · rw [lhmGet_lhmInsert_eq strKey _ name gid _ (by exact hn)]
    rfl
  · rw [lhmGet_lhmInsert_ne strKey _ name gid _ (by exact hn)]
    rw [lhmGet_lhmRemove_ne strKey m.groups name gid (by exact hn)]
    exact h

theorem mem_insertSet {β : Type} [DecidableEq β] (l : List β) (x y : β)
    (h : y ∈ l) : y ∈ insertSet l x := by
  unfold insertSet
  by_cases hx : x ∈ l
  · simp only [hx, if_true]
    exact h
  · simp only [hx, if_false]
    exact List.mem_append_left _ h

theorem dirs_applyOp (m : Model) (op : StoreOp) (d : DerivedName)
    (h : d ∈ m.all_directories) : d ∈ (applyOp m op).all_directories := by
  cases op with
  | register t i => exact mem_insertSet m.all_directories _ d h
  | register_group t n => exact h

theorem dirs_applyOps (m : Model) (ops : List StoreOp) (d : DerivedName)
    (h : d ∈ m.all_directories) : d ∈ (applyOps m ops).all_directories := by
  induction ops generalizing m with
  | nil => exact h
  | cons op rest ih => exact ih (applyOp m op) (dirs_applyOp m op d h)

theorem titles_applyOp (m : Model) (op : StoreOp) (d : DerivedName)
    (h : d ∈ m.all_titles) : d ∈ (applyOp m op).all_titles := by
  cases op with
  | register t i => exact mem_insertSet m.all_titles _ d h
  | register_group t n => exact h

theorem titles_applyOps (m : Model) (ops : List StoreOp) (d : DerivedName)
    (h : d ∈ m.all_titles) : d ∈ (applyOps m ops).all_titles := by
  induction ops generalizing m with
  | nil => exact h
  | cons op rest ih => exact ih (applyOp m op) (titles_applyOp m op d h)

theorem contains_applyOps (m : Model) (ops : List StoreOp) (j : BenchmarkId)
    (h : m.contains_benchmark j = true) :
    (applyOps m ops).contains_benchmark j = true := by
  induction ops generalizing m with
  | nil => exact h
  | cons op rest ih =>
    apply ih
    cases op with
    | register t i => exact contains_after_add m t i j h
    | register_group t n => exact contains_after_add_group m t n j h

/-- C7: within one run, for every pair of registrations, including pairs
separated by arbitrary further register and register_group operations, the
final directory names are distinct and the final titles are distinct: the
all_directories and all_titles sets grow monotonically across all
operations, so the later registration is uniquified against a set still
holding the earlier final names. Registration never silently drops an entry:
both identities are present at the end. -/
theorem registered_names_distinct (m : Model) (t1 t2 : String)
    (id1 id2 : BenchmarkId) (ops : List StoreOp) :
    ((applyOps (m.add_benchmark_id t1 id1).1 ops).add_benchmark_id t2
          id2).2.1.directory_name ≠
      (m.add_benchmark_id t1 id1).2.1.directory_name ∧
    ((applyOps (m.add_benchmark_id t1 id1).1 ops).add_benchmark_id t2
          id2).2.1.title ≠
      (m.add_benchmark_id t1 id1).2.1.title ∧
    ((applyOps (m.add_benchmark_id t1 id1).1 ops).add_benchmark_id t2
          id2).1.contains_benchmark id1 = true ∧
    ((applyOps (m.add_benchmark_id t1 id1).1 ops).add_benchmark_id t2
          id2).1.contains_benchmark id2 = true := by
  refine ⟨?_, ?_, ?_, ?_⟩
  · have hin :
        (m.add_benchmark_id t1 id1).2.1.directory_name ∈
          (m.add_benchmark_id t1 id1).1.all_directories :=
      mem_insertSet_self m.all_directories _
    have hin2 :
        (m.add_benchmark_id t1 id1).2.1.directory_name ∈
          (applyOps (m.add_benchmark_id t1 id1).1 ops).all_directories :=
      dirs_applyOps _ ops _ hin
    have hout :
        ((applyOps (m.add_benchmark_id t1 id1).1 ops).add_benchmark_id t2
            id2).2.1.directory_name ∉
          (applyOps (m.add_benchmark_id t1 id1).1 ops).all_directories :=
      uniquify_not_mem id2.directory_name
        ((applyOps (m.add_benchmark_id t1 id1).1 ops).all_directories)
    exact fun hc => hout (by rw [hc]; exact hin2)
  · have hin :
        (m.add_benchmark_id t1 id1).2.1.title ∈
          (m.add_benchmark_id t1 id1).1.all_titles :=
      mem_insertSet_self m.all_titles _
    have hin2 :
        (m.add_benchmark_id t1 id1).2.1.title ∈
          (applyOps (m.add_benchmark_id t1 id1).1 ops).all_titles :=
      titles_applyOps _ ops _ hin
    have hout :
        ((applyOps (m.add_benchmark_id t1 id1).1 ops).add_benchmark_id t2
            id2).2.1.title ∉
          (applyOps (m.add_benchmark_id t1 id1).1 ops).all_titles :=
      uniquify_not_mem id2.title
        ((applyOps (m.add_benchmark_id t1 id1).1 ops).all_titles)
    exact fun hc => hout (by rw [hc]; exact hin2)
  · exact
      contains_after_add _ t2 id2 id1
        (contains_applyOps _ ops id1 (add_contains_self m t1 id1))
  · exact add_contains_self _ t2 id2

/-- Second sample identity: a distinct identity deriving the same directory
name and title as sampleId. -/
def sampleIdB : BenchmarkId :=
  { group_id := "g"
    function_id := some "h"
    value_str := none
    throughput := none
    directory_name := ⟨"g/f", 0⟩
    title := ⟨"g f", 0⟩ }

/-- Witness for registered_names_distinct: two identities deriving the same
names, registered into the empty store with an intervening group
re-registration between them. -/
theorem registered_names_distinct_witness :
    ((applyOps (emptyModel.add_benchmark_id "t" sampleId).1
            [StoreOp.register_group "t3" "g"]).add_benchmark_id "t"
          sampleIdB).2.1.directory_name ≠
      (emptyModel.add_benchmark_id "t" sampleId).2.1.directory_name ∧
    ((applyOps (emptyModel.add_benchmark_id "t" sampleId).1
            [StoreOp.register_group "t3" "g"]).add_benchmark_id "t"
          sampleIdB).2.1.title ≠
      (emptyModel.add_benchmark_id "t" sampleId).2.1.title ∧
    ((applyOps (emptyModel.add_benchmark_id "t" sampleId).1
            [StoreOp.register_group "t3" "g"]).add_benchmark_id "t"
          sampleIdB).1.contains_benchmark sampleId = true ∧
    ((applyOps (emptyModel.add_benchmark_id "t" sampleId).1
            [StoreOp.register_group "t3" "g"]).add_benchmark_id "t"
          sampleIdB).1.contains_benchmark sampleIdB = true :=
  registered_names_distinct emptyModel "t" "t" sampleId sampleIdB
    [StoreOp.register_group "t3" "g"]

theorem lhmRemove_congr {K V : Type} {α : Type} [DecidableEq α] (key : K → α)
    (l : List (K × V)) (k₁ k₂ : K) (h : key k₁ = key k₂) :
    lhmRemove key l k₁ = lhmRemove key l k₂ := by
  induction l with
  | nil => rfl
  | cons e tl ih => simp [lhmRemove, h, ih]

/-- Keys of an association list are pairwise distinct under the projection. -/
def keysNodup {K V : Type} {α : Type} (key : K → α) (l : List (K × V)) :
    Prop :=
  (l.map fun e => key e.1).Nodup

theorem lhmInsert_lhmRemove_append {K V : Type} {α : Type} [DecidableEq α]
    (key : K → α) (l : List (K × V)) (k : K) (v : V) (hn : keysNodup key l) :
    lhmInsert key (lhmRemove key l k).2 k v =
      (lhmRemove key l k).2 ++ [(k, v)] :=
  lhmInsert_of_no_match key _ k v fun e he => lhmRemove_no_match key l k hn e he

theorem add_group_moves_to_end (m : Model) (t name : String)
    (hn : keysNodup strKey m.groups) :
    (m.add_benchmark_group t name).groups =
      (lhmRemove strKey m.groups name).2 ++
        [(name,
          { (lhmRemove strKey m.groups name).1.getD BenchmarkGroup.default with
              target := some t })] := by
  simp only [Model.add_benchmark_group]
  exact lhmInsert_lhmRemove_append strKey m.groups name _ hn

theorem add_id_moves_to_end (m : Model) (t : String) (id : BenchmarkId)
    (g : BenchmarkGroup) (hG : lhmGet strKey m.groups id.group_id = some g)
    (hn : keysNodup keyOf g.benchmarks) :
    ∃ b',
      lhmGet strKey (m.add_benchmark_id t id).1.groups id.group_id =
        some
          { g with
              benchmarks :=
                (lhmRemove keyOf g.benchmarks id).2 ++
                  [((m.add_benchmark_id t id).2.1, b')] } ∧
      b'.latest_stats =
        ((lhmRemove keyOf g.benchmarks id).1.getD
            Benchmark.default).latest_stats := by
  have hrc :
      lhmRemove keyOf g.benchmarks
          ((id.ensure_directory_name_unique
              m.all_directories).ensure_title_unique m.all_titles) =
        lhmRemove keyOf g.benchmarks id :=
    lhmRemove_congr keyOf g.benchmarks _ id (by rfl)
  have happ :
      lhmInsert keyOf (lhmRemove keyOf g.benchmarks id).2
          ((id.ensure_directory_name_unique
              m.all_directories).ensure_title_unique m.all_titles) =
        fun v =>
          (lhmRemove keyOf g.benchmarks id).2 ++
            [(((id.ensure_directory_name_unique
                  m.all_directories).ensure_title_unique m.all_titles), v)] := by
    funext v
    exact
      lhmInsert_of_no_match keyOf _ _ v fun e he hc =>
        lhmRemove_no_match keyOf g.benchmarks id hn e he hc
  cases hbt :
      ((lhmRemove keyOf g.benchmarks id).1.getD Benchmark.default).target with
  | some t0 =>
    refine ⟨(lhmRemove keyOf g.benchmarks id).1.getD Benchmark.default, ?_, rfl⟩
    simp only [Model.add_benchmark_id,
      BenchmarkId.ensure_directory_name_unique,
      BenchmarkId.ensure_title_unique] at hrc happ ⊢
    rw [lhmGet_lhmInsert_eq strKey m.groups _ id.group_id _ (by rfl)]
    simp only [hG, Option.getD_some]
    rw [hrc]
    simp only [happ, hbt]
  | none =>
    refine
      ⟨{ (lhmRemove keyOf g.benchmarks id).1.getD Benchmark.default with
          target := some t }, ?_, rfl⟩
    simp only [Model.add_benchmark_id,
      BenchmarkId.ensure_directory_name_unique,
      BenchmarkId.ensure_title_unique] at hrc happ ⊢
    rw [lhmGet_lhmInsert_eq strKey m.groups _ id.group_id _ (by rfl)]
    simp only [hG, Option.getD_some]
    rw [hrc]
    simp only [happ, hbt]

/-- C8: over any sequence of register and register_group operations on any
store state (such as one produced by load), no group or benchmark entry is
ever deleted; re-registering a group removes it and re-appends it at the end
of the group map with its benchmarks intact, and re-registering a benchmark
id removes its entry and re-appends it at the end of its group while
preserving the latest_stats it held. -/
theorem store_entries_persist_and_move_to_end :
    (∀ (m : Model) (ops : List StoreOp) (id : BenchmarkId),
        m.contains_benchmark id = true →
        (applyOps m ops).contains_benchmark id = true) ∧
    (∀ (m : Model) (ops : List StoreOp) (gid : String),
        m.contains_group gid = true →
        (applyOps m ops).contains_group gid = true) ∧
    (∀ (m : Model) (t name : String), keysNodup strKey m.groups →
        (m.add_benchmark_group t name).groups =
          (lhmRemove strKey m.groups name).2 ++
            [(name,
              { (lhmRemove strKey m.groups name).1.getD
                    BenchmarkGroup.default with
                  target := some t })]) ∧
    (∀ (m : Model) (t : String) (id : BenchmarkId) (g : BenchmarkGroup),
        lhmGet strKey m.groups id.group_id = some g →
        keysNodup keyOf g.benchmarks →
        ∃ b',
          lhmGet strKey (m.add_benchmark_id t id).1.groups id.group_id =
            some
              { g with
                  benchmarks :=
                    (lhmRemove keyOf g.benchmarks id).2 ++
                      [((m.add_benchmark_id t id).2.1, b')] } ∧
          b'.latest_stats =
            ((lhmRemove keyOf g.benchmarks id).1.getD
                Benchmark.default).latest_stats) := by
  refine ⟨?_, ?_, ?_, ?_⟩
  · intro m ops
    induction ops generalizing m with
    | nil => intro id h; exact h
    | cons op rest ih =>
      intro id h
      apply ih
      cases op with
      | register t i => exact contains_after_add m t i id h
      | register_group t n => exact contains_after_add_group m t n id h
  · intro m ops
    induction ops generalizing m with
    | nil => intro gid h; exact h
    | cons op rest ih =>
      intro gid h
      apply ih
      cases op with
      | register t i => exact group_after_add m t i gid h
      | register_group t n => exact group_after_add_group m t n gid h
  · intro m t name hn
    exact add_group_moves_to_end m t name hn
  · intro m t id g hG hn
    exact add_id_moves_to_end m t id g hG hn

/-- Witness for store_entries_persist_and_move_to_end on the concrete
registered store: the benchmark and its group survive a group
re-registration followed by a second benchmark registration, and both
move-to-end equations hold at the concrete state. -/
theorem store_entries_persist_and_move_to_end_witness :
    (applyOps registeredModel
        [StoreOp.register_group "t2" "g",
          StoreOp.register "t2" sampleIdB]).contains_benchmark sampleId =
      true ∧
    (applyOps registeredModel
        [StoreOp.register_group "t2" "g",
          StoreOp.register "t2" sampleIdB]).contains_group "g" = true ∧
    (registeredModel.add_benchmark_group "t2" "g").groups =
      (lhmRemove strKey registeredModel.groups "g").2 ++
        [("g",
          { (lhmRemove strKey registeredModel.groups "g").1.getD
                BenchmarkGroup.default with
              target := some "t2" })] ∧
    ∃ b',
      lhmGet strKey
          (registeredModel.add_benchmark_id "t2" sampleId).1.groups
          sampleId.group_id =
        some
          { benchmarks :=
              (lhmRemove keyOf
                    [(sampleId, Benchmark.default)] sampleId).2 ++
                [((registeredModel.add_benchmark_id "t2" sampleId).2.1, b')]
            target := some "t" } ∧
      b'.latest_stats =
        ((lhmRemove keyOf [(sampleId, Benchmark.default)] sampleId).1.getD
            Benchmark.default).latest_stats :=
  ⟨store_entries_persist_and_move_to_end.1 registeredModel _ sampleId
      (by decide),
    store_entries_persist_and_move_to_end.2.1 registeredModel _ "g"
      (by decide),
    store_entries_persist_and_move_to_end.2.2.1 registeredModel "t2" "g"
      (by unfold keysNodup; decide),
    store_entries_persist_and_move_to_end.2.2.2 registeredModel "t2" sampleId
      { benchmarks := [(sampleId, Benchmark.default)], target := some "t" }
      (by decide) (by unfold keysNodup; decide)⟩

theorem contains_insertLoaded_self (m : Model) (rec : BenchmarkRecord)
    (s : SavedStatistics) :
    (insertLoaded m rec s).contains_benchmark (BenchmarkId.ofSaved rec.id) =
      true := by
  unfold Model.contains_benchmark Model.get_benchmark insertLoaded
  rw [lhmGet_lhmInsert_eq strKey m.groups _ _ _ (by rfl)]
  simp only [Option.some_bind]
  rw [lhmGet_lhmInsert_eq keyOf _ _ (BenchmarkId.ofSaved rec.id) _ (by rfl)]
  rfl

theorem contains_insertLoaded_mono (m : Model) (rec : BenchmarkRecord)
    (s : SavedStatistics) (j : BenchmarkId)
    (h : m.contains_benchmark j = true) :
    (insertLoaded m rec s).contains_benchmark j = true := by
  unfold Model.contains_benchmark Model.get_benchmark at h ⊢
  rcases hg : lhmGet strKey m.groups j.group_id with _ | g
  · rw [hg] at h
    simp at h
  · rw [hg] at h
    simp only [Option.some_bind] at h
    unfold insertLoaded
    by_cases hn : rec.id.group_id = j.group_id
    · rw [lhmGet_lhmInsert_eq strKey m.groups _ j.group_id _ (by exact hn)]
      simp only [Option.some_bind]
      have hgx : lhmGet strKey m.groups rec.id.group_id = some g := by
        rw [hn]
        exact hg
      simp only [hgx, Option.getD_some]
      exact lhmGet_lhmInsert_isSome keyOf g.benchmarks _ j _ h
    · rw [lhmGet_lhmInsert_ne strKey m.groups _ j.group_id _ (by exact hn)]
      rw [hg]
      simp only [Option.some_bind]
      exact h

theorem load_stored_ok_cases (m : Model)
    (fs : List (List String × FileContent)) (p : List String) (m2 : Model)
    (h : m.load_stored_benchmark fs p = Except.ok m2) :
    m2 = m ∨ ∃ rec s, m2 = insertLoaded m rec s := by
  unfold Model.load_stored_benchmark at h
  cases h1 : lookupFile fs p with
  | none =>
    simp only [h1] at h
    exact Or.inl (by injection h with h; exact h.symm)
  | some c =>
    simp only [h1] at h
    cases c with
    | statsFile s => exact Except.noConfusion h
    | corrupt => exact Except.noConfusion h
    | recordFile rec =>
      cases h2 : lookupFile fs (p.dropLast ++ [rec.latest_record]) with
      | none =>
        simp only [h2] at h
        exact Or.inl (by injection h with h; exact h.symm)
      | some c2 =>
        simp only [h2] at h
        cases c2 with
        | statsFile s =>
          exact Or.inr ⟨rec, s, by injection h with h; exact h.symm⟩
        | recordFile r2 => exact Except.noConfusion h
        | corrupt => exact Except.noConfusion h

theorem loadStep_mono (fs : List (List String × FileContent)) (m : Model)
    (e : List String × FileContent) (j : BenchmarkId)
    (h : m.contains_benchmark j = true) :
    (loadStep fs m e).contains_benchmark j = true := by
  unfold loadStep
  split
  · cases hres : m.load_stored_benchmark fs e.1 with
    | error msg => exact h
    | ok m2 =>
      rcases load_stored_ok_cases m fs e.1 m2 hres with rfl | ⟨rec, s, rfl⟩
      · exact h
      · exact contains_insertLoaded_mono m rec s j h
  · exact h

theorem loadFold_mono (fs : List (List String × FileContent))
    (l : List (List String × FileContent)) (m : Model) (j : BenchmarkId)
    (h : m.contains_benchmark j = true) :
    (l.foldl (loadStep fs) m).contains_benchmark j = true := by
  induction l generalizing m with
  | nil => exact h
  | cons e tl ih => exact ih (loadStep fs m e) (loadStep_mono fs m e j h)

theorem loadAux_contains (fs : List (List String × FileContent)) :
    ∀ (l : List (List String × FileContent)) (m : Model) (p : List String)
      (c : FileContent) (r : BenchmarkRecord) (s : SavedStatistics),
      (p, c) ∈ l → p.getLast? = some "benchmark.cbor" →
      lookupFile fs p = some (FileContent.recordFile r) →
      lookupFile fs (p.dropLast ++ [r.latest_record]) =
        some (FileContent.statsFile s) →
      (l.foldl (loadStep fs) m).contains_benchmark
          (BenchmarkId.ofSaved r.id) = true := by
  intro l
  induction l with
  | nil =>
    intro m p c r s hmem
    cases hmem
  | cons e tl ih =>
    intro m p c r s hmem hname hrec hstats
    rcases List.mem_cons.mp hmem with heq | hmem2
    · have hstep :
          (loadStep fs m e).contains_benchmark (BenchmarkId.ofSaved r.id) =
            true := by
        rw [← heq]
        have hok :
            m.load_stored_benchmark fs p =
              Except.ok (insertLoaded m r s) := by
          unfold Model.load_stored_benchmark
          simp only [hrec, hstats]
        unfold loadStep
        simp only [hname, if_true, hok]
        exact contains_insertLoaded_self m r s
      exact loadFold_mono fs tl (loadStep fs m e) _ hstep
    · exact ih (loadStep fs m e) p c r s hmem2 hname hrec hstats

/-- C5: load never propagates a per-record failure (it is total by
construction, each record file being processed independently with errors
logged and skipped), and every validly decodable record in the walked
directory, whatever corrupt or undecodable entries surround it, still
appears in the loaded index. -/
theorem load_tolerates_corrupt_records (criterion_home timeline : String)
    (walk : List (List String × FileContent)) (p : List String)
    (c : FileContent) (r : BenchmarkRecord) (s : SavedStatistics)
    (hmem : (p, c) ∈ walk) (hname : p.getLast? = some "benchmark.cbor")
    (hrec : lookupFile walk p = some (FileContent.recordFile r))
    (hstats : lookupFile walk (p.dropLast ++ [r.latest_record]) =
      some (FileContent.statsFile s)) :
    (Model.load criterion_home timeline walk).contains_benchmark
        (BenchmarkId.ofSaved r.id) = true := by
  unfold Model.load
  exact loadAux_contains walk walk _ p c r s hmem hname hrec hstats

/-- Record file content used by the load witness. -/
def goodRecord : BenchmarkRecord :=
  { id := { group_id := "g", function_id := some "f", value_str := none,
            throughput := none }
    latest_record := "m1.cbor" }

/-- Snapshot stored in the valid measurement file of the load witness. -/
def goodStats : SavedStatistics :=
  { datetime := 3, iterations := [1], values := [2], avg_values := [2],
    estimates := ⟨7⟩, throughput := none }

/-- Walked data directory containing one corrupt record file followed by one
valid record file with its measurement file. -/
def sampleWalk : List (List String × FileContent) :=
  [(["home", "data", "main", "bad", "benchmark.cbor"], FileContent.corrupt),
    (["home", "data", "main", "good", "benchmark.cbor"],
      FileContent.recordFile goodRecord),
    (["home", "data", "main", "good", "m1.cbor"],
      FileContent.statsFile goodStats)]

/-- Witness for load_tolerates_corrupt_records: despite the corrupt record
file encountered first, the valid record still appears after load. -/
theorem load_tolerates_corrupt_records_witness :
    (Model.load "home" "main" sampleWalk).contains_benchmark
        (BenchmarkId.ofSaved goodRecord.id) = true :=
  load_tolerates_corrupt_records "home" "main" sampleWalk
    ["home", "data", "main", "good", "benchmark.cbor"]
    (FileContent.recordFile goodRecord) goodRecord goodStats (by decide)
    (by decide) (by decide) (by decide)
